import Mathlib

/-!
Shallow embedding of the notebook execution engine of the CloudeasyML
frontend (frontend/src/components/notebook/notebook-interface.tsx and
frontend/src/components/notebook/cell-output.tsx), together with proofs
about its cell-execution, restart, export and output-rendering behaviour.

The store (lib/stores/notebook-store.ts) and the kernel client
(lib/jupyter/kernel-client.ts) are not part of the sources here; the
definitions embedding them are modelled from the design spec and from the
call sites in notebook-interface.tsx, and are marked as such.
-/

namespace CloudeasyML

/-- Cell kind, from the source union type: code or markdown. -/
inductive CellType where
  | code
  | markdown
deriving DecidableEq, Repr

/-- Per-cell execution status, from the source union used in
notebook-cell.tsx: idle (default), running, completed, error. -/
inductive CellStatus where
  | idle
  | running
  | completed
  | error
deriving DecidableEq, Repr

/-- Session status, from the kernelStatus union in notebook-toolbar.tsx. -/
inductive KernelStatus where
  | disconnected
  | connecting
  | connected
  | busy
  | idle
  | restarting
deriving DecidableEq, Repr

/-- A payload stored under one content type of a result or display-data
output (nbformat data mapping values: string, list of strings, or an
arbitrary JSON value for application/json). -/
inductive Payload where
  | str (s : String)
  | strs (xs : List String)
  | jsonNull
  | jsonBool (b : Bool)
  | jsonNum (n : Int)
  | jsonObj
deriving DecidableEq, Repr

/-- JavaScript truthiness of a payload, as tested by the
`if (data[mimeType])` guard in cell-output.tsx: an absent key is falsy
(handled at the lookup), an empty string is falsy, an array is truthy,
null is falsy, a boolean is itself, a number is truthy iff nonzero, an
object is truthy. -/
def Payload.truthy : Payload → Bool
  | .str s => s ≠ ""
  | .strs _ => true
  | .jsonNull => false
  | .jsonBool b => b
  | .jsonNum n => n ≠ 0
  | .jsonObj => true

/-- One output of a cell, following the nbformat output variants used by
the source (output_type: stream, execute_result, display_data, error). -/
inductive Output where
  | stream (name : String) (text : String)
  | executeResult (data : List (String × Payload))
  | displayData (data : List (String × Payload))
  | error (ename : String) (evalue : String) (traceback : List String)
deriving DecidableEq, Repr

/-- The error test used at the end of executeCell in
notebook-interface.tsx: output.output_type === the error variant. -/
def Output.isError : Output → Bool
  | .error _ _ _ => true
  | _ => false

/-- A notebook cell as held by the store: id, type, source text, outputs,
execution count, status and optional metadata. -/
structure Cell where
  id : String
  type : CellType
  source : String
  outputs : List Output
  executionCount : Option Int
  status : CellStatus
  metadata : Option (List (String × String))
deriving DecidableEq, Repr

/-- The state visible to notebook-interface.tsx: the store (cells plus the
session status it tracks) and the modelled kernel client. `hasClient` is
whether kernelClient is non-null; `clientReady` is the value of the client
predicate isReady(). -/
structure NotebookState where
  cells : List Cell
  kernelStatus : KernelStatus
  hasClient : Bool
  clientReady : Bool
deriving DecidableEq, Repr

/-- Update every cell whose id matches (ids are unique by construction, so
at most one) with `f`, leaving the others alone. -/
def updateCellIn (cells : List Cell) (cellId : String) (f : Cell → Cell) : List Cell :=
  cells.map fun c => if c.id = cellId then f c else c

/-- Modelled from the spec: the Cell Store operation behind
updateCellOutputs in notebook-store.ts (not under src). Its replace
semantics is fixed by the in-src call sites, which pass the empty list to
clear and the full result list to commit. -/
def updateCellOutputs (s : NotebookState) (cellId : String) (outs : List Output) : NotebookState :=
  { s with cells := updateCellIn s.cells cellId fun c => { c with outputs := outs } }

/-- Modelled from the spec: the Cell Store operation behind
updateCellStatus in notebook-store.ts (not under src). -/
def updateCellStatus (s : NotebookState) (cellId : String) (st : CellStatus) : NotebookState :=
  { s with cells := updateCellIn s.cells cellId fun c => { c with status := st } }

/-- Modelled from the spec: the Cell Store operation behind
updateCellExecutionCount in notebook-store.ts (not under src). -/
def updateCellExecutionCount (s : NotebookState) (cellId : String) (n : Int) : NotebookState :=
  { s with cells := updateCellIn s.cells cellId fun c => { c with executionCount := some n } }

/-- Modelled from the spec: setKernelStatus of notebook-store.ts (not
under src) stores the session status. -/
def setKernelStatus (s : NotebookState) (k : KernelStatus) : NotebookState :=
  { s with kernelStatus := k }

/-- Modelled from the spec: clearAllOutputs of notebook-store.ts (not
under src) resets every cell to empty outputs and idle status without
touching its source (spec section 4.3). -/
def clearAllOutputs (s : NotebookState) : NotebookState :=
  { s with cells := s.cells.map fun c => { c with outputs := [], status := CellStatus.idle } }

/-- cells.find by id, as used by the guard in executeCell. -/
def findCell (cells : List Cell) (cellId : String) : Option Cell :=
  cells.find? fun c => c.id = cellId

/-- Modelled from the spec: the synthetic error that kernel-client.ts
(not under src) records when an execution is interrupted before a
terminal event (spec section 4.2 step 5). -/
def interruptedOutput : Output :=
  Output.error "interrupted" "Execution was interrupted" []

/-- The observable behaviour of one call to the kernel client executeCode
for a given cell: the stream either completes normally after emitting the
listed events (the kernel may report an execution count), is interrupted
before its terminal event, or dies with a transport failure after
emitting a prefix of events. -/
inductive ExecBehavior where
  | completes (events : List Output) (execCount : Option Int)
  | interrupted (events : List Output)
  | transportFail (events : List Output)
deriving DecidableEq, Repr

def ExecBehavior.isTransportFail : ExecBehavior → Bool
  | .transportFail _ => true
  | _ => false

/-- The events delivered through the per-output callback before
executeCode resolves or throws. -/
def streamedEvents : ExecBehavior → List Output
  | .completes evs _ => evs
  | .interrupted evs => evs
  | .transportFail evs => evs

/-- Modelled from the spec: the resolution of kernel-client.ts executeCode
(not under src). On normal completion it resolves with the emitted events
in arrival order and the kernel-reported execution count (spec sections
4.2 and 6); on an interruption before a terminal event it resolves with a
synthetic interrupted error appended and no execution count (spec section
4.2 step 5); on a transport failure it throws a ConnectionError, encoded
as none (spec sections 4.1 and 7). -/
def execCodeResult : ExecBehavior → Option (Option Int × List Output)
  | .completes evs cnt => some (cnt, evs)
  | .interrupted evs => some (none, evs ++ [interruptedOutput])
  | .transportFail _ => none

/-- The store writes performed by the streaming callback of executeCell in
notebook-interface.tsx. The callback reads the cells binding captured by
the surrounding useCallback closure, so every write computes from the
stale pre-execution outputs (`stale`) of the target cell, not from the
store: each event event replaces the outputs with stale plus that single
event. -/
def streamWrites (s : NotebookState) (cellId : String) (stale : List Output)
    (events : List Output) : NotebookState :=
  events.foldl (fun st ev => updateCellOutputs st cellId (stale ++ [ev])) s

/-- Errors that could escape an engine operation to its caller. -/
inductive ExecError where
  | connectionError
  | notReadyError
deriving DecidableEq, Repr

/-- Result of one call to executeCell: the error escaping to the caller
(if any), whether the code was actually submitted to the kernel, and the
state afterwards. -/
structure ExecOutcome where
  thrown : Option ExecError
  submitted : Bool
  state : NotebookState
deriving DecidableEq, Repr

/-- The success tail of executeCell in notebook-interface.tsx: commit the
execution count when the kernel reported one, overwrite the outputs with
the resolved result outputs, set the cell status from the error scan, and
return the session status to idle. -/
def execResolve (s : NotebookState) (cellId : String) (cnt : Option Int)
    (outs : List Output) : NotebookState :=
  let s1 := match cnt with
    | some n => updateCellExecutionCount s cellId n
    | none => s
  let s2 := updateCellOutputs s1 cellId outs
  let s3 := updateCellStatus s2 cellId
    (if outs.any Output.isError then CellStatus.error else CellStatus.completed)
  setKernelStatus s3 KernelStatus.idle

/-- The catch block of executeCell in notebook-interface.tsx: mark the
cell errored and the session idle, swallowing the exception. The modelled
client itself transitions to disconnected on the transport failure (spec
section 4.1), so isReady becomes false. -/
def execCatch (s : NotebookState) (cellId : String) : NotebookState :=
  setKernelStatus
    (updateCellStatus { s with clientReady := false } cellId CellStatus.error)
    KernelStatus.idle

/-- executeCell of notebook-interface.tsx. Returns without submitting when
there is no client or the client is not ready (only a toast is shown), or
when the cell is missing or not a code cell. Otherwise: status running,
session busy, outputs cleared, the code is submitted, the streamed events
are written by the (stale-closure) callback, and the call either resolves
through the success tail or is caught by the catch block; in both cases no
error escapes to the caller. -/
def executeCell (s : NotebookState) (cellId : String) (beh : ExecBehavior) : ExecOutcome :=
  if !(s.hasClient && s.clientReady) then ⟨none, false, s⟩
  else
    match findCell s.cells cellId with
    | none => ⟨none, false, s⟩
    | some cell =>
      if cell.type ≠ CellType.code then ⟨none, false, s⟩
      else
        let started := updateCellOutputs
          (setKernelStatus (updateCellStatus s cellId CellStatus.running) KernelStatus.busy)
          cellId []
        let streamed := streamWrites started cellId cell.outputs (streamedEvents beh)
        match execCodeResult beh with
        | some (cnt, outs) => ⟨none, true, execResolve streamed cellId cnt outs⟩
        | none => ⟨none, true, execCatch streamed cellId⟩

/-- One iteration of the runAllCells loop in notebook-interface.tsx,
instrumented with the list of cell ids actually submitted to the kernel. -/
def runAllStep (beh : String → ExecBehavior) (acc : List String × NotebookState)
    (c : Cell) : List String × NotebookState :=
  if c.type = CellType.code then
    let r := executeCell acc.2 c.id (beh c.id)
    (acc.1 ++ (if r.submitted then [c.id] else []), r.state)
  else acc

/-- runAllCells of notebook-interface.tsx: iterate the cells in notebook
order and await executeCell on each code cell before moving on. The first
component records which cells were submitted, in submission order. -/
def runAllCells (s : NotebookState) (beh : String → ExecBehavior) :
    List String × NotebookState :=
  s.cells.foldl (runAllStep beh) ([], s)

/-- restartKernel of notebook-interface.tsx: no-op without a client;
otherwise session status restarting, then on success idle followed by
clearAllOutputs, and on failure the catch sets the session status to idle
(the modelled client fails closed to disconnected, spec section 7, so
isReady becomes false). -/
def restartKernel (s : NotebookState) (restartSucceeds : Bool) : NotebookState :=
  if !s.hasClient then s
  else
    let s1 := setKernelStatus s KernelStatus.restarting
    if restartSucceeds then
      clearAllOutputs (setKernelStatus { s1 with clientReady := true } KernelStatus.idle)
    else
      setKernelStatus { s1 with clientReady := false } KernelStatus.idle

/-- interruptKernel of notebook-interface.tsx: no-op without a client; on
success the session status is set to idle; on failure only a toast is
shown. -/
def interruptKernel (s : NotebookState) (interruptSucceeds : Bool) : NotebookState :=
  if !s.hasClient then s
  else if interruptSucceeds then setKernelStatus s KernelStatus.idle
  else s

/-- One cell entry of the exported notebook document built by
exportNotebook in notebook-interface.tsx. -/
structure ExportCell where
  cell_type : CellType
  source : List String
  outputs : List Output
  execution_count : Option Int
  metadata : List (String × String)
deriving DecidableEq, Repr

/-- The exported notebook document built by exportNotebook in
notebook-interface.tsx: the per-cell entries plus the document-level
kernelspec, language_info and nbformat fields. -/
structure ExportDoc where
  cells : List ExportCell
  kernelspec_display_name : String
  kernelspec_language : String
  kernelspec_name : String
  language_info_name : String
  language_info_version : String
  nbformat : Nat
  nbformat_minor : Nat
deriving DecidableEq, Repr

/-- exportNotebook of notebook-interface.tsx: map each cell to its entry
(type, source split on newline, outputs, execution count, metadata with
an empty-object default) and attach the fixed document metadata. -/
def exportNotebook (cells : List Cell) : ExportDoc :=
  { cells := cells.map fun c =>
      { cell_type := c.type
        source := c.source.splitOn "\n"
        outputs := c.outputs
        execution_count := c.executionCount
        metadata := c.metadata.getD [] }
    kernelspec_display_name := "Python 3"
    kernelspec_language := "python"
    kernelspec_name := "python3"
    language_info_name := "python"
    language_info_version := "3.11.0"
    nbformat := 4
    nbformat_minor := 5 }

/-- The representation chosen by the renderer for one output (cell-output.tsx). -/
inductive Rendered where
  | image (mimeType : String) (data : Payload)
  | svg (data : Payload)
  | html (data : Payload)
  | json (data : Payload)
  | plainText (data : Payload)
  | noRenderable
deriving DecidableEq, Repr

/-- The fixed priority order of content types in DisplayDataOutput
(cell-output.tsx). -/
def mimeTypes : List String :=
  ["image/png", "image/jpeg", "image/svg+xml", "text/html", "application/json", "text/plain"]

/-- Property access data[mimeType] on the output data mapping. -/
def lookupMime (data : List (String × Payload)) (m : String) : Option Payload :=
  (data.find? fun p => p.1 = m).map fun p => p.2

/-- Whether data[mimeType] is truthy: present and a truthy value. -/
def truthyAt (data : List (String × Payload)) (m : String) : Bool :=
  match lookupMime data m with
  | some p => p.truthy
  | none => false

/-- The for loop of DisplayDataOutput in cell-output.tsx over the priority
list: at each content type, if data[mimeType] is truthy the switch picks
the renderer for that content type and returns; otherwise (and on the
impossible fall-through of the switch) the loop continues; when the list
is exhausted the placeholder is rendered. -/
def renderLoop (data : List (String × Payload)) : List String → Rendered
  | [] => Rendered.noRenderable
  | m :: rest =>
    match lookupMime data m with
    | some p =>
      if p.truthy then
        if m = "image/png" ∨ m = "image/jpeg" then Rendered.image m p
        else if m = "image/svg+xml" then Rendered.svg p
        else if m = "text/html" then Rendered.html p
        else if m = "application/json" then Rendered.json p
        else if m = "text/plain" then Rendered.plainText p
        else renderLoop data rest
      else renderLoop data rest
    | none => renderLoop data rest

/-- DisplayDataOutput of cell-output.tsx, used for execute_result and
display_data outputs. -/
def DisplayDataOutput (data : List (String × Payload)) : Rendered :=
  renderLoop data mimeTypes

/-- The first content type of the priority list present in the data
mapping, whether or not its payload is truthy. This is the selection the
claim describes. -/
def firstPresentMime (data : List (String × Payload)) : Option String :=
  mimeTypes.find? fun m => (lookupMime data m).isSome

/-- The first content type of the priority list with a truthy payload. -/
def firstTruthyMime (data : List (String × Payload)) : Option String :=
  mimeTypes.find? fun m => truthyAt data m

/-- Selection following the amended claim: render the first content type
of the priority order whose payload is present and truthy; render the
placeholder when there is none. -/
def selectTruthy (data : List (String × Payload)) : Rendered :=
  match firstTruthyMime data with
  | none => Rendered.noRenderable
  | some m =>
    match lookupMime data m with
    | none => Rendered.noRenderable
    | some p =>
      if m = "image/png" ∨ m = "image/jpeg" then Rendered.image m p
      else if m = "image/svg+xml" then Rendered.svg p
      else if m = "text/html" then Rendered.html p
      else if m = "application/json" then Rendered.json p
      else Rendered.plainText p

/-- The last event of a stream, none for an empty stream. -/
def lastEvent : List Output → Option Output
  | [] => none
  | [e] => some e
  | _ :: e :: rest => lastEvent (e :: rest)

lemma lastEvent_cons_ne_none (e : Output) (rest : List Output) :
    lastEvent (e :: rest) ≠ none := by
  induction rest generalizing e with
  | nil => simp [lastEvent]
  | cons b bs ih => exact ih b

lemma findCell_updateCellIn (cells : List Cell) (cellId : String) (f : Cell → Cell)
    (hf : ∀ c, (f c).id = c.id) :
    findCell (updateCellIn cells cellId f) cellId = (findCell cells cellId).map f := by
  induction cells with
  | nil => rfl
  | cons a cs ih =>
    simp only [updateCellIn, List.map_cons, findCell] at ih ⊢
    by_cases h : a.id = cellId
    · rw [if_pos h, List.find?_cons_of_pos _ (by simp [hf, h]),
        List.find?_cons_of_pos _ (by simp [h])]
      rfl
    · rw [if_neg h, List.find?_cons_of_neg _ (by simp [h]),
        List.find?_cons_of_neg _ (by simp [h])]
      exact ih

lemma findCell_updateCellOutputs (s : NotebookState) (cellId : String) (outs : List Output) :
    findCell (updateCellOutputs s cellId outs).cells cellId =
      (findCell s.cells cellId).map fun c => { c with outputs := outs } :=
  findCell_updateCellIn s.cells cellId _ fun _ => rfl

lemma findCell_updateCellStatus (s : NotebookState) (cellId : String) (st : CellStatus) :
    findCell (updateCellStatus s cellId st).cells cellId =
      (findCell s.cells cellId).map fun c => { c with status := st } :=
  findCell_updateCellIn s.cells cellId _ fun _ => rfl

lemma findCell_updateCellExecutionCount (s : NotebookState) (cellId : String) (n : Int) :
    findCell (updateCellExecutionCount s cellId n).cells cellId =
      (findCell s.cells cellId).map fun c => { c with executionCount := some n } :=
  findCell_updateCellIn s.cells cellId _ fun _ => rfl

lemma cells_setKernelStatus (s : NotebookState) (k : KernelStatus) :
    (setKernelStatus s k).cells = s.cells := rfl

lemma streamWrites_findCell (cellId : String) (stale : List Output) (evs : List Output) :
    ∀ s : NotebookState,
    findCell (streamWrites s cellId stale evs).cells cellId =
      match lastEvent evs with
      | none => findCell s.cells cellId
      | some l => (findCell s.cells cellId).map fun c => { c with outputs := stale ++ [l] } := by
  induction evs with
  | nil => intro s; rfl
  | cons e rest ih =>
    intro s
    cases rest with
    | nil =>
      show findCell (updateCellOutputs s cellId (stale ++ [e])).cells cellId = _
      rw [findCell_updateCellOutputs]
      rfl
    | cons b bs =>
      have hstep : streamWrites s cellId stale (e :: b :: bs) =
          streamWrites (updateCellOutputs s cellId (stale ++ [e])) cellId stale (b :: bs) := rfl
      rw [hstep, ih]
      have hl : lastEvent (e :: b :: bs) = lastEvent (b :: bs) := rfl
      rw [hl]
      cases hlast : lastEvent (b :: bs) with
      | none => exact absurd hlast (lastEvent_cons_ne_none b bs)
      | some l =>
        rw [findCell_updateCellOutputs]
        cases findCell s.cells cellId with
        | none => rfl
        | some c => rfl

/-- The resolved cell after the executeCell success tail. -/
lemma findCell_execResolve (s : NotebookState) (cellId : String) (cnt : Option Int)
    (outs : List Output) :
    findCell (execResolve s cellId cnt outs).cells cellId =
      (findCell s.cells cellId).map fun c =>
        { c with
          executionCount := match cnt with | some n => some n | none => c.executionCount
          outputs := outs
          status := if outs.any Output.isError then CellStatus.error else CellStatus.completed } := by
  cases cnt with
  | none =>
    show findCell (updateCellStatus (updateCellOutputs s cellId outs) cellId _).cells cellId = _
    rw [findCell_updateCellStatus, findCell_updateCellOutputs]
    cases findCell s.cells cellId with
    | none => rfl
    | some c => rfl
  | some n =>
    show findCell (updateCellStatus (updateCellOutputs
      (updateCellExecutionCount s cellId n) cellId outs) cellId _).cells cellId = _
    rw [findCell_updateCellStatus, findCell_updateCellOutputs,
      findCell_updateCellExecutionCount]
    cases findCell s.cells cellId with
    | none => rfl
    | some c => rfl

/-- The cell after the executeCell catch block. -/
lemma findCell_execCatch (s : NotebookState) (cellId : String) :
    findCell (execCatch s cellId).cells cellId =
      (findCell s.cells cellId).map fun c => { c with status := CellStatus.error } := by
  show findCell (updateCellStatus { s with clientReady := false } cellId _).cells cellId = _
  rw [findCell_updateCellStatus]

lemma kernelStatus_execResolve (s : NotebookState) (cellId : String) (cnt : Option Int)
    (outs : List Output) :
    (execResolve s cellId cnt outs).kernelStatus = KernelStatus.idle := rfl

lemma kernelStatus_execCatch (s : NotebookState) (cellId : String) :
    (execCatch s cellId).kernelStatus = KernelStatus.idle := rfl

lemma clientReady_execCatch (s : NotebookState) (cellId : String) :
    (execCatch s cellId).clientReady = false := rfl

/-- The id and type of every cell, in order; execution never changes it. -/
def cellShape (cells : List Cell) : List (String × CellType) :=
  cells.map fun c => (c.id, c.type)

lemma cellShape_updateCellIn (cells : List Cell) (cellId : String) (f : Cell → Cell)
    (hid : ∀ c, (f c).id = c.id) (hty : ∀ c, (f c).type = c.type) :
    cellShape (updateCellIn cells cellId f) = cellShape cells := by
  induction cells with
  | nil => rfl
  | cons a cs ih =>
    simp only [updateCellIn, List.map_cons, cellShape] at ih ⊢
    by_cases h : a.id = cellId
    · rw [if_pos h]
      simp [hid, hty, ih]
    · rw [if_neg h]
      simp [ih]

lemma cellShape_updateCellOutputs (s : NotebookState) (cellId : String) (outs : List Output) :
    cellShape (updateCellOutputs s cellId outs).cells = cellShape s.cells :=
  cellShape_updateCellIn s.cells cellId _ (fun _ => rfl) (fun _ => rfl)

lemma cellShape_updateCellStatus (s : NotebookState) (cellId : String) (st : CellStatus) :
    cellShape (updateCellStatus s cellId st).cells = cellShape s.cells :=
  cellShape_updateCellIn s.cells cellId _ (fun _ => rfl) (fun _ => rfl)

lemma cellShape_updateCellExecutionCount (s : NotebookState) (cellId : String) (n : Int) :
    cellShape (updateCellExecutionCount s cellId n).cells = cellShape s.cells :=
  cellShape_updateCellIn s.cells cellId _ (fun _ => rfl) (fun _ => rfl)

lemma streamWrites_cellShape (cellId : String) (stale : List Output) (evs : List Output) :
    ∀ s : NotebookState,
    cellShape (streamWrites s cellId stale evs).cells = cellShape s.cells := by
  induction evs with
  | nil => intro s; rfl
  | cons e rest ih =>
    intro s
    have hstep : streamWrites s cellId stale (e :: rest) =
        streamWrites (updateCellOutputs s cellId (stale ++ [e])) cellId stale rest := rfl
    rw [hstep, ih, cellShape_updateCellOutputs]

lemma streamWrites_hasClient (cellId : String) (stale : List Output) (evs : List Output) :
    ∀ s : NotebookState, (streamWrites s cellId stale evs).hasClient = s.hasClient := by
  induction evs with
  | nil => intro s; rfl
  | cons e rest ih => intro s; exact ih (updateCellOutputs s cellId (stale ++ [e]))

lemma streamWrites_clientReady (cellId : String) (stale : List Output) (evs : List Output) :
    ∀ s : NotebookState, (streamWrites s cellId stale evs).clientReady = s.clientReady := by
  induction evs with
  | nil => intro s; rfl
  | cons e rest ih => intro s; exact ih (updateCellOutputs s cellId (stale ++ [e]))

lemma execResolve_cellShape (s : NotebookState) (cellId : String) (cnt : Option Int)
    (outs : List Output) :
    cellShape (execResolve s cellId cnt outs).cells = cellShape s.cells := by
  cases cnt with
  | none =>
    show cellShape (setKernelStatus (updateCellStatus (updateCellOutputs s cellId outs)
      cellId _) KernelStatus.idle).cells = _
    rw [cells_setKernelStatus, cellShape_updateCellStatus, cellShape_updateCellOutputs]
  | some n =>
    show cellShape (setKernelStatus (updateCellStatus (updateCellOutputs
      (updateCellExecutionCount s cellId n) cellId outs) cellId _) KernelStatus.idle).cells = _
    rw [cells_setKernelStatus, cellShape_updateCellStatus, cellShape_updateCellOutputs,
      cellShape_updateCellExecutionCount]

lemma execResolve_hasClient (s : NotebookState) (cellId : String) (cnt : Option Int)
    (outs : List Output) :
    (execResolve s cellId cnt outs).hasClient = s.hasClient := by
  cases cnt <;> rfl

lemma execResolve_clientReady (s : NotebookState) (cellId : String) (cnt : Option Int)
    (outs : List Output) :
    (execResolve s cellId cnt outs).clientReady = s.clientReady := by
  cases cnt <;> rfl

lemma execCatch_cellShape (s : NotebookState) (cellId : String) :
    cellShape (execCatch s cellId).cells = cellShape s.cells := by
  show cellShape (setKernelStatus (updateCellStatus { s with clientReady := false }
    cellId _) KernelStatus.idle).cells = _
  rw [cells_setKernelStatus, cellShape_updateCellStatus]

lemma execCatch_hasClient (s : NotebookState) (cellId : String) :
    (execCatch s cellId).hasClient = s.hasClient := rfl

/-- Reduction of executeCell when the guards pass. -/
lemma executeCell_eval (s : NotebookState) (cellId : String) (beh : ExecBehavior) (c : Cell)
    (h1 : s.hasClient = true) (h2 : s.clientReady = true)
    (hc : findCell s.cells cellId = some c) (ht : c.type = CellType.code) :
    executeCell s cellId beh =
      (let started := updateCellOutputs
        (setKernelStatus (updateCellStatus s cellId CellStatus.running) KernelStatus.busy)
        cellId []
      let streamed := streamWrites started cellId c.outputs (streamedEvents beh)
      match execCodeResult beh with
      | some (cnt, outs) => ⟨none, true, execResolve streamed cellId cnt outs⟩
      | none => ⟨none, true, execCatch streamed cellId⟩) := by
  unfold executeCell
  rw [h1, h2, hc]
  simp [ht]

lemma findCell_started (s : NotebookState) (cellId : String) :
    findCell (updateCellOutputs (setKernelStatus (updateCellStatus s cellId CellStatus.running)
      KernelStatus.busy) cellId []).cells cellId =
    (findCell s.cells cellId).map
      fun c => { c with status := CellStatus.running, outputs := [] } := by
  rw [findCell_updateCellOutputs]
  have hsk : findCell (setKernelStatus (updateCellStatus s cellId CellStatus.running)
      KernelStatus.busy).cells cellId =
      findCell (updateCellStatus s cellId CellStatus.running).cells cellId := rfl
  rw [hsk, findCell_updateCellStatus]
  cases findCell s.cells cellId with
  | none => rfl
  | some c => rfl

/-- Full characterization of executeCell when the client call resolves
(normal completion, or an interruption handled by the modelled client). -/
lemma executeCell_resolve (s : NotebookState) (cellId : String) (beh : ExecBehavior)
    (cnt : Option Int) (outs : List Output) (c : Cell)
    (h1 : s.hasClient = true) (h2 : s.clientReady = true)
    (hc : findCell s.cells cellId = some c) (ht : c.type = CellType.code)
    (hb : execCodeResult beh = some (cnt, outs)) :
    (executeCell s cellId beh).thrown = none ∧
    (executeCell s cellId beh).submitted = true ∧
    findCell (executeCell s cellId beh).state.cells cellId =
      some { c with
        executionCount := match cnt with | some n => some n | none => c.executionCount
        outputs := outs
        status := if outs.any Output.isError then CellStatus.error else CellStatus.completed } ∧
    (executeCell s cellId beh).state.kernelStatus = KernelStatus.idle ∧
    (executeCell s cellId beh).state.clientReady = true := by
  have he := executeCell_eval s cellId beh c h1 h2 hc ht
  simp only [hb] at he
  rw [he]
  refine ⟨rfl, rfl, ?_, rfl, ?_⟩
  · rw [findCell_execResolve, streamWrites_findCell]
    cases lastEvent (streamedEvents beh) with
    | none =>
      rw [findCell_started, hc]
      cases cnt <;> rfl
    | some l =>
      rw [findCell_started, hc]
      cases cnt <;> rfl
  · rw [execResolve_clientReady, streamWrites_clientReady]
    exact h2

/-- Full characterization of executeCell on a transport failure: the
ConnectionError is swallowed by the catch block, the cell is marked
errored with the outputs left as the streaming callback last wrote them
(the stale-closure write: the pre-execution outputs plus only the final
event, or the cleared empty list when no event arrived), the session
status is idle, and the modelled client is no longer ready. -/
lemma executeCell_transportFail_eval (s : NotebookState) (cellId : String)
    (evs : List Output) (c : Cell)
    (h1 : s.hasClient = true) (h2 : s.clientReady = true)
    (hc : findCell s.cells cellId = some c) (ht : c.type = CellType.code) :
    (executeCell s cellId (ExecBehavior.transportFail evs)).thrown = none ∧
    (executeCell s cellId (ExecBehavior.transportFail evs)).submitted = true ∧
    findCell (executeCell s cellId (ExecBehavior.transportFail evs)).state.cells cellId =
      some { c with
        outputs := match lastEvent evs with
          | none => []
          | some l => c.outputs ++ [l]
        status := CellStatus.error } ∧
    (executeCell s cellId (ExecBehavior.transportFail evs)).state.kernelStatus =
      KernelStatus.idle ∧
    (executeCell s cellId (ExecBehavior.transportFail evs)).state.clientReady = false := by
  have he := executeCell_eval s cellId (ExecBehavior.transportFail evs) c h1 h2 hc ht
  simp only [execCodeResult] at he
  rw [he]
  refine ⟨rfl, rfl, ?_, rfl, ?_⟩
  · rw [findCell_execCatch, streamWrites_findCell]
    simp only [streamedEvents]
    cases lastEvent evs with
    | none =>
      rw [findCell_started, hc]
      rfl
    | some l =>
      rw [findCell_started, hc]
      rfl
  · rw [clientReady_execCatch]

/-- The guard at the top of executeCell: with no ready client, nothing at
all happens (the state is returned unchanged and nothing is thrown). -/
lemma executeCell_guard (s : NotebookState) (cellId : String) (beh : ExecBehavior)
    (h : (s.hasClient && s.clientReady) = false) :
    executeCell s cellId beh = ⟨none, false, s⟩ := by
  unfold executeCell
  rw [h]
  rfl

lemma executeCell_submitted (s : NotebookState) (cellId : String) (beh : ExecBehavior)
    (c : Cell) (h1 : s.hasClient = true) (h2 : s.clientReady = true)
    (hc : findCell s.cells cellId = some c) (ht : c.type = CellType.code) :
    (executeCell s cellId beh).submitted = true := by
  have he := executeCell_eval s cellId beh c h1 h2 hc ht
  rw [he]
  rcases hb : execCodeResult beh with _ | ⟨cnt, outs⟩ <;> simp only [hb]

lemma executeCell_hasClient (s : NotebookState) (cellId : String) (beh : ExecBehavior) :
    (executeCell s cellId beh).state.hasClient = s.hasClient := by
  rcases h : (s.hasClient && s.clientReady) with _ | _
  · rw [executeCell_guard s cellId beh h]
  · rcases hc : findCell s.cells cellId with _ | c
    · simp [executeCell, h, hc]
    · by_cases ht : c.type = CellType.code
      · have h1 : s.hasClient = true := by
          cases hcl : s.hasClient <;> simp [hcl] at h ⊢
        have h2 : s.clientReady = true := by
          cases hcl : s.clientReady <;> simp [hcl] at h ⊢
        have he := executeCell_eval s cellId beh c h1 h2 hc ht
        rw [he]
        rcases hb : execCodeResult beh with _ | ⟨cnt, outs⟩ <;> simp only [hb]
        · show (execCatch _ _).hasClient = s.hasClient
          rw [execCatch_hasClient, streamWrites_hasClient]
          rfl
        · show (execResolve _ _ cnt outs).hasClient = s.hasClient
          rw [execResolve_hasClient, streamWrites_hasClient]
          rfl
      · simp [executeCell, h, hc, ht]

lemma executeCell_cellShape (s : NotebookState) (cellId : String) (beh : ExecBehavior) :
    cellShape (executeCell s cellId beh).state.cells = cellShape s.cells := by
  rcases h : (s.hasClient && s.clientReady) with _ | _
  · rw [executeCell_guard s cellId beh h]
  · rcases hc : findCell s.cells cellId with _ | c
    · simp [executeCell, h, hc]
    · by_cases ht : c.type = CellType.code
      · have h1 : s.hasClient = true := by
          cases hcl : s.hasClient <;> simp [hcl] at h ⊢
        have h2 : s.clientReady = true := by
          cases hcl : s.clientReady <;> simp [hcl] at h ⊢
        have he := executeCell_eval s cellId beh c h1 h2 hc ht
        rw [he]
        rcases hb : execCodeResult beh with _ | ⟨cnt, outs⟩ <;> simp only [hb]
        · show cellShape (execCatch _ _).cells = cellShape s.cells
          rw [execCatch_cellShape, streamWrites_cellShape, cellShape_updateCellOutputs,
            cells_setKernelStatus, cellShape_updateCellStatus]
        · show cellShape (execResolve _ _ cnt outs).cells = cellShape s.cells
          rw [execResolve_cellShape, streamWrites_cellShape, cellShape_updateCellOutputs,
            cells_setKernelStatus, cellShape_updateCellStatus]
      · simp [executeCell, h, hc, ht]

lemma executeCell_clientReady (s : NotebookState) (cellId : String) (beh : ExecBehavior)
    (hnt : beh.isTransportFail = false) :
    (executeCell s cellId beh).state.clientReady = s.clientReady := by
  have hbr : ∃ cnt outs, execCodeResult beh = some (cnt, outs) := by
    cases beh with
    | completes evs cnt => exact ⟨cnt, evs, rfl⟩
    | interrupted evs => exact ⟨none, evs ++ [interruptedOutput], rfl⟩
    | transportFail evs => simp [ExecBehavior.isTransportFail] at hnt
  obtain ⟨cnt, outs, hb⟩ := hbr
  rcases h : (s.hasClient && s.clientReady) with _ | _
  · rw [executeCell_guard s cellId beh h]
  · rcases hc : findCell s.cells cellId with _ | c
    · simp [executeCell, h, hc]
    · by_cases ht : c.type = CellType.code
      · have h1 : s.hasClient = true := by
          cases hcl : s.hasClient <;> simp [hcl] at h ⊢
        have h2 : s.clientReady = true := by
          cases hcl : s.clientReady <;> simp [hcl] at h ⊢
        have he := executeCell_eval s cellId beh c h1 h2 hc ht
        rw [he]
        simp only [hb]
        show (execResolve _ _ cnt outs).clientReady = s.clientReady
        rw [execResolve_clientReady, streamWrites_clientReady]
        rfl
      · simp [executeCell, h, hc, ht]

lemma findCell_of_nodup (cells : List Cell) (h : (cells.map Cell.id).Nodup)
    (c : Cell) (hm : c ∈ cells) : findCell cells c.id = some c := by
  induction cells with
  | nil => cases hm
  | cons a cs ih =>
    rw [List.map_cons, List.nodup_cons] at h
    rcases List.mem_cons.mp hm with rfl | hm2
    · exact List.find?_cons_of_pos _ (by simp)
    · show List.find? _ (a :: cs) = some c
      rw [List.find?_cons_of_neg]
      · exact ih h.2 hm2
      · simp only [decide_eq_true_eq]
        intro heq
        exact h.1 (by rw [heq]; exact List.mem_map_of_mem Cell.id hm2)

/-- Whether a cell of a given id exists, and its type, depends only on the
shape (ids and types) of the store. -/
lemma findCell_shape (cells cells2 : List Cell) (h : cellShape cells = cellShape cells2)
    (cellId : String) :
    (findCell cells cellId).map (fun c => (c.id, c.type)) =
    (findCell cells2 cellId).map fun c => (c.id, c.type) := by
  induction cells generalizing cells2 with
  | nil =>
    cases cells2 with
    | nil => rfl
    | cons b bs => simp [cellShape] at h
  | cons a as ih =>
    cases cells2 with
    | nil => simp [cellShape] at h
    | cons b bs =>
      simp only [cellShape, List.map_cons, List.cons.injEq] at h
      obtain ⟨hhd, htl⟩ := h
      have hid : a.id = b.id := congrArg Prod.fst hhd
      have hty : a.type = b.type := congrArg Prod.snd hhd
      by_cases hp : a.id = cellId
      · show (List.find? _ (a :: as)).map _ = (List.find? _ (b :: bs)).map _
        rw [List.find?_cons_of_pos _ (by simp [hp]),
          List.find?_cons_of_pos _ (by simp [← hid, hp])]
        simp [hid, hty]
      · show (List.find? _ (a :: as)).map _ = (List.find? _ (b :: bs)).map _
        rw [List.find?_cons_of_neg _ (by simp [hp]),
          List.find?_cons_of_neg _ (by simp [← hid, hp])]
        exact ih bs (by simpa [cellShape] using htl)

/-- Invariant-carrying induction over the runAllCells loop: as long as the
client stays ready (no transport failure) every code cell of the list is
submitted, in order, regardless of how the individual executions end. -/
lemma runAll_aux (beh : String → ExecBehavior) (base : NotebookState) :
    ∀ (L : List Cell) (st : NotebookState) (tr : List String),
    st.hasClient = true → st.clientReady = true →
    cellShape base.cells = cellShape st.cells →
    (∀ c ∈ L, c.type = CellType.code → findCell base.cells c.id = some c) →
    (∀ c ∈ L, (beh c.id).isTransportFail = false) →
    (L.foldl (runAllStep beh) (tr, st)).1 =
      tr ++ (L.filter fun c => c.type = CellType.code).map Cell.id := by
  intro L
  induction L with
  | nil =>
    intro st tr _ _ _ _ _
    simp
  | cons a L ih =>
    intro st tr h1 h2 hshape hfind hnt
    by_cases hty : a.type = CellType.code
    · have hbase := hfind a (List.mem_cons_self a L) hty
      have hstc : ∃ cst, findCell st.cells a.id = some cst ∧ cst.type = CellType.code := by
        have hmap := findCell_shape base.cells st.cells hshape a.id
        rw [hbase] at hmap
        cases hfc : findCell st.cells a.id with
        | none =>
          rw [hfc] at hmap
          simp at hmap
        | some cst =>
          rw [hfc] at hmap
          refine ⟨cst, rfl, ?_⟩
          have hpair : (a.id, a.type) = (cst.id, cst.type) := by simpa using hmap
          have hsnd : a.type = cst.type := congrArg Prod.snd hpair
          rw [← hsnd]
          exact hty
      obtain ⟨cst, hfc, htc⟩ := hstc
      have hsub := executeCell_submitted st a.id (beh a.id) cst h1 h2 hfc htc
      have hstep : runAllStep beh (tr, st) a =
          (tr ++ [a.id], (executeCell st a.id (beh a.id)).state) := by
        simp [runAllStep, hty, hsub]
      have hnta : (beh a.id).isTransportFail = false := hnt a (List.mem_cons_self a L)
      rw [List.foldl_cons, hstep,
        ih ((executeCell st a.id (beh a.id)).state) (tr ++ [a.id])
          (by rw [executeCell_hasClient]; exact h1)
          (by rw [executeCell_clientReady st a.id (beh a.id) hnta]; exact h2)
          (by rw [executeCell_cellShape]; exact hshape)
          (fun c hm hc => hfind c (List.mem_cons_of_mem a hm) hc)
          (fun c hm => hnt c (List.mem_cons_of_mem a hm))]
      simp [hty]
    · have hstep : runAllStep beh (tr, st) a = (tr, st) := by
        simp [runAllStep, hty]
      rw [List.foldl_cons, hstep,
        ih st tr h1 h2 hshape
          (fun c hm hc => hfind c (List.mem_cons_of_mem a hm) hc)
          (fun c hm => hnt c (List.mem_cons_of_mem a hm))]
      simp [hty]

/-- The rendering loop picks the first content type with a truthy payload,
for any priority list made of the six known content types. -/
lemma renderLoop_find (data : List (String × Payload)) :
    ∀ ms : List String,
    (∀ m ∈ ms, m = "image/png" ∨ m = "image/jpeg" ∨ m = "image/svg+xml" ∨
      m = "text/html" ∨ m = "application/json" ∨ m = "text/plain") →
    renderLoop data ms =
      match ms.find? (fun m => truthyAt data m) with
      | none => Rendered.noRenderable
      | some m =>
        match lookupMime data m with
        | none => Rendered.noRenderable
        | some p =>
          if m = "image/png" ∨ m = "image/jpeg" then Rendered.image m p
          else if m = "image/svg+xml" then Rendered.svg p
          else if m = "text/html" then Rendered.html p
          else if m = "application/json" then Rendered.json p
          else Rendered.plainText p := by
  intro ms
  induction ms with
  | nil => intro _; rfl
  | cons m rest ih =>
    intro hall
    have hm := hall m (List.mem_cons_self m rest)
    have hcons : renderLoop data (m :: rest) =
        (match lookupMime data m with
        | some p =>
          if p.truthy then
            if m = "image/png" ∨ m = "image/jpeg" then Rendered.image m p
            else if m = "image/svg+xml" then Rendered.svg p
            else if m = "text/html" then Rendered.html p
            else if m = "application/json" then Rendered.json p
            else if m = "text/plain" then Rendered.plainText p
            else renderLoop data rest
          else renderLoop data rest
        | none => renderLoop data rest) := rfl
    cases hp : lookupMime data m with
    | none =>
      have hfind : (m :: rest).find? (fun x => truthyAt data x) =
          rest.find? fun x => truthyAt data x :=
        List.find?_cons_of_neg _ (by simp [truthyAt, hp])
      rw [hcons, hp, hfind]
      exact ih fun x hx => hall x (List.mem_cons_of_mem m hx)
    | some p =>
      by_cases htr : p.truthy = true
      · have hfind : (m :: rest).find? (fun x => truthyAt data x) = some m :=
          List.find?_cons_of_pos _ (by simp [truthyAt, hp, htr])
        rw [hcons, hfind]
        simp only [hp]
        rcases hm with rfl | rfl | rfl | rfl | rfl | rfl <;> simp [htr]
      · have hfind : (m :: rest).find? (fun x => truthyAt data x) =
            rest.find? fun x => truthyAt data x :=
          List.find?_cons_of_neg _ (by simp [truthyAt, hp, htr])
        rw [hcons, hfind]
        simp only [hp]
        rw [if_neg htr]
        exact ih fun x hx => hall x (List.mem_cons_of_mem m hx)

/-! Concrete fixtures used by witnesses and counterexamples. -/

def wCellA : Cell :=
  { id := "a", type := CellType.code, source := "print(2+2)", outputs := [],
    executionCount := none, status := CellStatus.idle, metadata := none }

def wCellMd : Cell :=
  { id := "m", type := CellType.markdown, source := "hello", outputs := [],
    executionCount := none, status := CellStatus.idle, metadata := none }

def wCellB : Cell :=
  { id := "b", type := CellType.code, source := "raise ValueError", outputs := [],
    executionCount := none, status := CellStatus.idle, metadata := none }

def outOk : Output := Output.stream "stdout" "4\n"

def outErr : Output := Output.error "ValueError" "boom" []

/-- A ready session holding a code cell, a markdown cell and a second code
cell. -/
def wState : NotebookState :=
  { cells := [wCellA, wCellMd, wCellB], kernelStatus := KernelStatus.idle,
    hasClient := true, clientReady := true }

/-- Behaviour where cell b fails with an execution error and every other
cell completes cleanly. -/
def wBeh : String → ExecBehavior := fun cellId =>
  if cellId = "b" then ExecBehavior.completes [outErr] none
  else ExecBehavior.completes [outOk] (some 1)

/-- Behaviour where the first cell dies with a transport failure. -/
def cxBeh : String → ExecBehavior := fun cellId =>
  if cellId = "a" then ExecBehavior.transportFail []
  else ExecBehavior.completes [outOk] (some 1)

/-- A completed cell holding one output. -/
def wCellD : Cell :=
  { id := "d", type := CellType.code, source := "x = 1", outputs := [outOk],
    executionCount := some 1, status := CellStatus.completed, metadata := none }

/-- A ready session whose only cell has completed with one output. -/
def rsState : NotebookState :=
  { cells := [wCellD], kernelStatus := KernelStatus.idle,
    hasClient := true, clientReady := true }

/-- A session whose client reports not ready. -/
def nrState : NotebookState :=
  { cells := [wCellA], kernelStatus := KernelStatus.busy,
    hasClient := true, clientReady := false }

/-- A data mapping holding two content types, the higher-priority one with
an empty (falsy) payload. -/
def cxData : List (String × Payload) :=
  [("image/png", Payload.str ""), ("text/plain", Payload.str "hi")]

/-! Claim theorems. -/

/-- C2: for every execution of a single code cell whose output stream
completes, the cell outputs after the execution equal exactly the sequence
of events received from the kernel, in arrival order, with no reordering
and no drops (the final commit writes the resolved result outputs, which
are the events in arrival order). -/
theorem executeCell_outputs_equal_arrival_order (s : NotebookState) (cellId : String)
    (evs : List Output) (cnt : Option Int) (c : Cell)
    (h1 : s.hasClient = true) (h2 : s.clientReady = true)
    (hc : findCell s.cells cellId = some c) (ht : c.type = CellType.code) :
    (findCell (executeCell s cellId (ExecBehavior.completes evs cnt)).state.cells cellId).map
      Cell.outputs = some evs := by
  obtain ⟨-, -, h3, -, -⟩ := executeCell_resolve s cellId (ExecBehavior.completes evs cnt)
    cnt evs c h1 h2 hc ht rfl
  rw [h3]
  rfl

/-- Witness for C2 at a concrete ready session, cell and stream. -/
theorem executeCell_outputs_equal_arrival_order_witness :
    wState.hasClient = true ∧ wState.clientReady = true ∧
    findCell wState.cells "a" = some wCellA ∧ wCellA.type = CellType.code ∧
    (findCell (executeCell wState "a"
      (ExecBehavior.completes [outOk] (some 1))).state.cells "a").map
      Cell.outputs = some [outOk] :=
  ⟨rfl, rfl, by decide, rfl,
    executeCell_outputs_equal_arrival_order wState "a" [outOk] (some 1) wCellA
      rfl rfl (by decide) rfl⟩

/-- C7: for a cell execution whose output stream completes, the terminal
status is errored exactly when some emitted output is of the error
variant, and completed otherwise. -/
theorem executeCell_errored_iff_error_output (s : NotebookState) (cellId : String)
    (evs : List Output) (cnt : Option Int) (c : Cell)
    (h1 : s.hasClient = true) (h2 : s.clientReady = true)
    (hc : findCell s.cells cellId = some c) (ht : c.type = CellType.code) :
    ((findCell (executeCell s cellId (ExecBehavior.completes evs cnt)).state.cells cellId).map
        Cell.status = some CellStatus.error ↔ evs.any Output.isError = true) ∧
    ((findCell (executeCell s cellId (ExecBehavior.completes evs cnt)).state.cells cellId).map
        Cell.status = some CellStatus.completed ↔ evs.any Output.isError = false) := by
  obtain ⟨-, -, h3, -, -⟩ := executeCell_resolve s cellId (ExecBehavior.completes evs cnt)
    cnt evs c h1 h2 hc ht rfl
  rw [h3]
  by_cases he : evs.any Output.isError = true
  · simp [he]
  · simp only [Bool.not_eq_true] at he
    simp [he]

/-- Witness for C7 at a concrete erroring stream. -/
theorem executeCell_errored_iff_error_output_witness :
    wState.hasClient = true ∧ wState.clientReady = true ∧
    findCell wState.cells "b" = some wCellB ∧ wCellB.type = CellType.code ∧
    (((findCell (executeCell wState "b"
        (ExecBehavior.completes [outErr] none)).state.cells "b").map
        Cell.status = some CellStatus.error ↔ [outErr].any Output.isError = true) ∧
      ((findCell (executeCell wState "b"
        (ExecBehavior.completes [outErr] none)).state.cells "b").map
        Cell.status = some CellStatus.completed ↔ [outErr].any Output.isError = false)) :=
  ⟨rfl, rfl, by decide, rfl,
    executeCell_errored_iff_error_output wState "b" [outErr] none wCellB
      rfl rfl (by decide) rfl⟩

/-- C8: for a cell execution interrupted before the kernel produced a
terminal event, the cell status becomes errored and a synthetic
interrupted error output is recorded among its outputs. -/
theorem executeCell_interrupted_synthetic_error (s : NotebookState) (cellId : String)
    (evs : List Output) (c : Cell)
    (h1 : s.hasClient = true) (h2 : s.clientReady = true)
    (hc : findCell s.cells cellId = some c) (ht : c.type = CellType.code) :
    (findCell (executeCell s cellId (ExecBehavior.interrupted evs)).state.cells cellId).map
      Cell.status = some CellStatus.error ∧
    (findCell (executeCell s cellId (ExecBehavior.interrupted evs)).state.cells cellId).map
      Cell.outputs = some (evs ++ [interruptedOutput]) ∧
    interruptedOutput ∈ evs ++ [interruptedOutput] := by
  obtain ⟨-, -, h3, -, -⟩ := executeCell_resolve s cellId (ExecBehavior.interrupted evs)
    none (evs ++ [interruptedOutput]) c h1 h2 hc ht rfl
  rw [h3]
  have herr : (evs ++ [interruptedOutput]).any Output.isError = true := by
    simp [interruptedOutput, Output.isError]
  refine ⟨?_, rfl, by simp⟩
  simp [herr]

/-- Witness for C8 at a concrete interrupted execution. -/
theorem executeCell_interrupted_synthetic_error_witness :
    wState.hasClient = true ∧ wState.clientReady = true ∧
    findCell wState.cells "a" = some wCellA ∧ wCellA.type = CellType.code ∧
    ((findCell (executeCell wState "a"
        (ExecBehavior.interrupted [outOk])).state.cells "a").map
        Cell.status = some CellStatus.error ∧
      (findCell (executeCell wState "a"
        (ExecBehavior.interrupted [outOk])).state.cells "a").map
        Cell.outputs = some ([outOk] ++ [interruptedOutput]) ∧
      interruptedOutput ∈ [outOk] ++ [interruptedOutput]) :=
  ⟨rfl, rfl, by decide, rfl,
    executeCell_interrupted_synthetic_error wState "a" [outOk] wCellA
      rfl rfl (by decide) rfl⟩

/-- C5 counterexample: at a concrete transport failure the caller receives
no ConnectionError (executeCell catches it and resolves normally), even
though the cell is marked errored, so the claim that a ConnectionError is
propagated to the caller is false. -/
theorem transport_failure_not_propagated_counterexample :
    (executeCell wState "a" (ExecBehavior.transportFail [outOk])).thrown ≠
      some ExecError.connectionError ∧
    (executeCell wState "a" (ExecBehavior.transportFail [outOk])).thrown = none ∧
    (findCell (executeCell wState "a"
      (ExecBehavior.transportFail [outOk])).state.cells "a").map
      Cell.status = some CellStatus.error := by
  decide

/-- C5 (amended): a transport failure during the stream aborts the cell
execution with status errored and session status idle, the ConnectionError
is caught inside executeCell and nothing is propagated to the caller, the
error handler does not touch the outputs (they stay as the streaming
callback last wrote them: the stale pre-execution outputs plus only the
final delivered event, or the cleared empty list when no event arrived),
and the modelled client is left not ready. -/
theorem executeCell_transport_failure_contained (s : NotebookState) (cellId : String)
    (evs : List Output) (c : Cell)
    (h1 : s.hasClient = true) (h2 : s.clientReady = true)
    (hc : findCell s.cells cellId = some c) (ht : c.type = CellType.code) :
    (executeCell s cellId (ExecBehavior.transportFail evs)).thrown = none ∧
    (findCell (executeCell s cellId (ExecBehavior.transportFail evs)).state.cells cellId).map
      Cell.status = some CellStatus.error ∧
    (findCell (executeCell s cellId (ExecBehavior.transportFail evs)).state.cells cellId).map
      Cell.outputs = some (match lastEvent evs with
        | none => []
        | some l => c.outputs ++ [l]) ∧
    (executeCell s cellId (ExecBehavior.transportFail evs)).state.kernelStatus =
      KernelStatus.idle ∧
    (executeCell s cellId (ExecBehavior.transportFail evs)).state.clientReady = false := by
  obtain ⟨ha, -, h3, h4, h5⟩ := executeCell_transportFail_eval s cellId evs c h1 h2 hc ht
  rw [h3]
  exact ⟨ha, rfl, rfl, h4, h5⟩

/-- Witness for the amended C5 at a concrete two-event stream cut short. -/
theorem executeCell_transport_failure_contained_witness :
    wState.hasClient = true ∧ wState.clientReady = true ∧
    findCell wState.cells "a" = some wCellA ∧ wCellA.type = CellType.code ∧
    ((executeCell wState "a" (ExecBehavior.transportFail [outOk, outErr])).thrown = none ∧
      (findCell (executeCell wState "a"
        (ExecBehavior.transportFail [outOk, outErr])).state.cells "a").map
        Cell.status = some CellStatus.error ∧
      (findCell (executeCell wState "a"
        (ExecBehavior.transportFail [outOk, outErr])).state.cells "a").map
        Cell.outputs = some (match lastEvent [outOk, outErr] with
          | none => []
          | some l => wCellA.outputs ++ [l]) ∧
      (executeCell wState "a"
        (ExecBehavior.transportFail [outOk, outErr])).state.kernelStatus =
        KernelStatus.idle ∧
      (executeCell wState "a"
        (ExecBehavior.transportFail [outOk, outErr])).state.clientReady = false) :=
  ⟨rfl, rfl, by decide, rfl,
    executeCell_transport_failure_contained wState "a" [outOk, outErr] wCellA
      rfl rfl (by decide) rfl⟩

/-- C6 counterexample: at a concrete not-ready session executeCell returns
without raising anything, so the claim that the call fails with a
NotReadyError is false (the no-mutation half does hold). -/
theorem notReady_no_error_counterexample :
    (executeCell nrState "a" (ExecBehavior.completes [outOk] (some 1))).thrown ≠
      some ExecError.notReadyError ∧
    (executeCell nrState "a" (ExecBehavior.completes [outOk] (some 1))).thrown = none ∧
    (executeCell nrState "a" (ExecBehavior.completes [outOk] (some 1))).state = nrState := by
  decide

/-- C6 (amended): a call to executeCell while the client is not ready
returns without raising any error (only a toast is shown) and performs no
mutation at all: the whole state, including the target cell status,
outputs and execution count and the session status, is returned
unchanged, and nothing is submitted to the kernel. -/
theorem executeCell_not_ready_no_mutation (s : NotebookState) (cellId : String)
    (beh : ExecBehavior) (h : s.clientReady = false) :
    executeCell s cellId beh = ⟨none, false, s⟩ := by
  apply executeCell_guard
  rw [h, Bool.and_false]

/-- Witness for the amended C6 at a concrete not-ready session. -/
theorem executeCell_not_ready_no_mutation_witness :
    nrState.clientReady = false ∧
    executeCell nrState "a" (ExecBehavior.completes [outOk] (some 1)) =
      ⟨none, false, nrState⟩ :=
  ⟨rfl, executeCell_not_ready_no_mutation nrState "a"
    (ExecBehavior.completes [outOk] (some 1)) rfl⟩

/-- C3 counterexample: restarting a concrete session with a completed cell
clears that cell outputs (restartKernel calls clearAllOutputs on success),
so the claim that restart leaves outputs of previously completed cells
untouched is false. -/
theorem restart_clears_outputs_counterexample :
    (findCell (restartKernel rsState true).cells "d").map Cell.outputs = some [] ∧
    (findCell rsState.cells "d").map Cell.outputs = some [outOk] ∧
    some ([] : List Output) ≠ some [outOk] := by
  decide

/-- C3 (amended): a successful restart clears every cell outputs and
resets every cell status to idle through clearAllOutputs; outputs of
previously completed cells are left untouched only when the restart
fails. -/
theorem restartKernel_outputs_behavior (s : NotebookState) (h : s.hasClient = true) :
    (restartKernel s true).cells =
      s.cells.map (fun c => { c with outputs := [], status := CellStatus.idle }) ∧
    (restartKernel s false).cells = s.cells := by
  constructor
  · simp [restartKernel, h, clearAllOutputs, setKernelStatus]
  · simp [restartKernel, h, setKernelStatus]

/-- Witness for the amended C3 at the concrete completed-cell session. -/
theorem restartKernel_outputs_behavior_witness :
    rsState.hasClient = true ∧
    ((restartKernel rsState true).cells =
      rsState.cells.map (fun c => { c with outputs := [], status := CellStatus.idle }) ∧
    (restartKernel rsState false).cells = rsState.cells) :=
  ⟨rfl, restartKernel_outputs_behavior rsState rfl⟩

/-- C4 counterexample: at a concrete failing restart the session status is
set to idle, not disconnected, so the claim that a failed restart forces
the session status to disconnected is false. -/
theorem restart_failure_status_counterexample :
    (restartKernel rsState false).kernelStatus = KernelStatus.idle ∧
    KernelStatus.idle ≠ KernelStatus.disconnected := by
  decide

/-- C4 (amended): when the teardown and reconnect sequence underlying
restart fails, the catch block sets the session status to idle (not
disconnected); only the modelled client readiness is lost. -/
theorem restartKernel_failure_sets_idle (s : NotebookState) (h : s.hasClient = true) :
    (restartKernel s false).kernelStatus = KernelStatus.idle ∧
    (restartKernel s false).clientReady = false := by
  constructor <;> simp [restartKernel, h, setKernelStatus]

/-- Witness for the amended C4 at the concrete session. -/
theorem restartKernel_failure_sets_idle_witness :
    rsState.hasClient = true ∧
    ((restartKernel rsState false).kernelStatus = KernelStatus.idle ∧
      (restartKernel rsState false).clientReady = false) :=
  ⟨rfl, restartKernel_failure_sets_idle rsState rfl⟩

/-- C1 counterexample: in a concrete run-all over the code cells a and b
where a dies with a transport failure, a terminates in errored status and
b is never submitted (the modelled client disconnects on transport
failure, so the isReady guard skips it), so the claim that a cell
terminating in errored status never prevents submission of the following
code cells is false. -/
theorem runAll_transport_failure_stops_submissions :
    (runAllCells wState cxBeh).1 = ["a"] ∧
    (findCell (runAllCells wState cxBeh).2.cells "a").map Cell.status =
      some CellStatus.error ∧
    "b" ∉ (runAllCells wState cxBeh).1 := by
  decide

/-- C1 (amended): invoking run all submits exactly the code-kind cells, in
notebook order, strictly sequentially (the fold awaits each execution
before folding the next), and a cell terminating in errored status because
its outputs contain an error output does not prevent submission of the
following code cells (the behaviour function is arbitrary as long as no
execution dies with a transport failure); only a transport failure, which
disconnects the modelled client, stops subsequent submissions. -/
theorem runAllCells_submits_exactly_code_cells (s : NotebookState)
    (beh : String → ExecBehavior)
    (h1 : s.hasClient = true) (h2 : s.clientReady = true)
    (h3 : (s.cells.map Cell.id).Nodup)
    (h4 : ∀ c ∈ s.cells, (beh c.id).isTransportFail = false) :
    (runAllCells s beh).1 =
      (s.cells.filter fun c => c.type = CellType.code).map Cell.id := by
  have haux := runAll_aux beh s s.cells s [] h1 h2 rfl
    (fun c hm _ => findCell_of_nodup s.cells h3 c hm) h4
  simpa [runAllCells] using haux

/-- Witness for the amended C1: a run-all over code, markdown and code
cells where the second code cell errors still submits both code cells in
order. -/
theorem runAllCells_submits_exactly_code_cells_witness :
    wState.hasClient = true ∧ wState.clientReady = true ∧
    (wState.cells.map Cell.id).Nodup ∧
    (∀ c ∈ wState.cells, (wBeh c.id).isTransportFail = false) ∧
    (runAllCells wState wBeh).1 =
      (wState.cells.filter fun c => c.type = CellType.code).map Cell.id :=
  ⟨rfl, rfl, by decide, by decide,
    runAllCells_submits_exactly_code_cells wState wBeh rfl rfl (by decide) (by decide)⟩

/-- C9: export produces an ordered document with exactly one entry per
cell in notebook order carrying that cell type, its source as the ordered
list of its lines, its outputs, its execution count and its metadata
(defaulted to empty), plus the document-level format version and kernel
descriptor fields. -/
theorem exportNotebook_structure (cells : List Cell) (i : Nat) :
    (exportNotebook cells).cells.length = cells.length ∧
    ((exportNotebook cells).cells[i]?).map ExportCell.cell_type =
      (cells[i]?).map Cell.type ∧
    ((exportNotebook cells).cells[i]?).map ExportCell.source =
      (cells[i]?).map (fun c => c.source.splitOn "\n") ∧
    ((exportNotebook cells).cells[i]?).map ExportCell.outputs =
      (cells[i]?).map Cell.outputs ∧
    ((exportNotebook cells).cells[i]?).map ExportCell.execution_count =
      (cells[i]?).map Cell.executionCount ∧
    ((exportNotebook cells).cells[i]?).map ExportCell.metadata =
      (cells[i]?).map (fun c => c.metadata.getD []) ∧
    (exportNotebook cells).nbformat = 4 ∧
    (exportNotebook cells).nbformat_minor = 5 ∧
    (exportNotebook cells).kernelspec_name = "python3" ∧
    (exportNotebook cells).kernelspec_display_name = "Python 3" ∧
    (exportNotebook cells).kernelspec_language = "python" := by
  refine ⟨by simp [exportNotebook], ?_, ?_, ?_, ?_, ?_, rfl, rfl, rfl, rfl, rfl⟩ <;>
  · simp only [exportNotebook, List.getElem?_map, Option.map_map]
    cases cells[i]? <;> rfl

/-- C10 counterexample: on a mapping holding both image/png (with an empty
string payload) and text/plain, the first content type present in the
priority order is image/png but the renderer renders the text/plain
representation, because the source tests JavaScript truthiness of the
payload, not presence of the content type; so the claim that the first
present content type is selected is false. -/
theorem renderer_skips_empty_payload_counterexample :
    firstPresentMime cxData = some "image/png" ∧
    DisplayDataOutput cxData = Rendered.plainText (Payload.str "hi") ∧
    DisplayDataOutput cxData ≠ Rendered.image "image/png" (Payload.str "") := by
  decide

/-- C10 (amended): the renderer selects exactly one representation: the
one for the first content type of the fixed priority order whose payload
is present and truthy (in particular non-empty for string payloads); when
no content type has a truthy payload it renders the placeholder. -/
theorem DisplayDataOutput_eq_selectTruthy (data : List (String × Payload)) :
    DisplayDataOutput data = selectTruthy data := by
  rw [DisplayDataOutput,
    renderLoop_find data mimeTypes (fun m hm => by simpa [mimeTypes] using hm)]
  rfl

end CloudeasyML
